import Mathlib

/-!
# Verification of the lcprxy chat-proxy request/response handling

Shallow embedding of the request normalization and response extraction done by
the serverless chat handlers of this repository:

* `src/api/chat.js` — the main handler (`chatHandler` below): prompt
  validation, defensive history normalization (`safeHistory`), system
  instruction normalization, and final `contents` construction.
* `src/unnamed/part_000` — the simpler handler variant (`part000Handler`):
  `!prompt` validation, `item.parts || [{text: item.text || ""}]` history
  coercion, and optional-chained response-text extraction with the
  `"No content generated."` placeholder.
* `src/utils/geminiClient.js` — `sanitizeMessage`, `prepareMessages`,
  the 200-response interpretation inside `generateContent`, the catch-block
  error re-wrapping, and the `getGeminiClient` singleton factory.
* `src/unnamed/part_002` — the catch-block error-message → HTTP status
  mapping of the GeminiClient-based API endpoint.

JavaScript values reaching these functions come from a JSON-parsed request
body (or from the upstream JSON response), so they are modelled by the
inductive type `JSVal` below: JSON has no `NaN`/`undefined` literal, numbers
are modelled as rationals, and `vnull` stands for both JS `null` and
`undefined` (the two behave identically in every guard, truthiness test and
typeof-driven branch that occurs in this code base).  Property access on
`null`/`undefined` raises a `TypeError`; this is modelled with `Except Unit`.
Strings are modelled as their lists of Unicode scalar values; the JS
`slice(0, 4000)` counts UTF-16 code units, which agrees with the model on all
non-astral text (the model truncates at character granularity).
-/

namespace Lcprxy

/-- A JSON-representable JavaScript value.  `vnull` models both `null` and
`undefined`; `vnum` carries a rational (JSON numerals denote finite decimal
numbers). -/
inductive JSVal where
  | vnull
  | vbool (b : Bool)
  | vnum (x : ℚ)
  | vstr (s : String)
  | varr (elems : List JSVal)
  | vobj (fields : List (String × JSVal))

/-- JavaScript truthiness: `null`/`undefined`, `false`, `0` and `""` are
falsy, every array and object is truthy. -/
def truthy : JSVal → Bool
  | .vnull => false
  | .vbool b => b
  | .vnum x => x != 0
  | .vstr s => s != ""
  | .varr _ => true
  | .vobj _ => true

/-- First binding of a key in an object's field list (JS object lookup). -/
def lookupField (fields : List (String × JSVal)) (k : String) : Option JSVal :=
  (fields.find? (fun p => p.1 == k)).map (fun p => p.2)

/-- JS property access `v.k`: throws a `TypeError` on `null`/`undefined`,
returns the field (or `undefined`, i.e. `vnull`) on an object, and
`undefined` on any other non-null value (primitives and arrays carry none of
the property names used by this code). -/
def getField : JSVal → String → Except Unit JSVal
  | .vnull, _ => .error ()
  | .vobj fs, k => .ok ((lookupField fs k).getD .vnull)
  | _, _ => .ok .vnull

/-- Non-throwing property access, used where the source has already
guarded the receiver (destructuring of `req.body || {}`, access on a value
known to be truthy) or uses optional chaining `v?.k`. -/
def fieldOf (v : JSVal) (k : String) : JSVal :=
  match v with
  | .vobj fs => (lookupField fs k).getD .vnull
  | _ => .vnull

/-- Index access `v[0]` on a receiver known to be non-null, and the
optional-chained `v?.[0]`: first element of an array, `undefined`
otherwise. -/
def jsIndex0 (v : JSVal) : JSVal :=
  match v with
  | .varr (x :: _) => x
  | _ => .vnull

/-! ## `GeminiClient.sanitizeMessage` (src/utils/geminiClient.js, lines 20-35)

`message.trim().slice(0, 4000)`, then `replace(/[<>{}[\]]/g, '')`, then
`replace(/\s+/g, ' ')`, modelled on lists of characters. -/

/-- The character class matched by the JS regexp `\s` (ECMAScript WhiteSpace
and LineTerminator productions). -/
def isWs (c : Char) : Bool :=
  c == ' ' || c == '\t' || c == '\n' || c == '\r' || c == '\u000b' || c == '\u000c'
    || c == '\u00a0' || c == '\u1680' || (0x2000 ≤ c.toNat && c.toNat ≤ 0x200a)
    || c == '\u2028' || c == '\u2029' || c == '\u202f' || c == '\u205f'
    || c == '\u3000' || c == '\ufeff'

/-- The characters removed by `replace(/[<>{}[\]]/g, '')`. -/
def isStrip (c : Char) : Bool :=
  c == '<' || c == '>' || c == '\x7b' || c == '\x7d' || c == '[' || c == ']'

/-- Leading-whitespace removal (left half of JS `String.prototype.trim`). -/
def trimLeft (l : List Char) : List Char := l.dropWhile isWs

/-- Trailing-whitespace removal (right half of JS `String.prototype.trim`). -/
def trimRight (l : List Char) : List Char := (l.reverse.dropWhile isWs).reverse

/-- JS `String.prototype.trim`. -/
def trimChars (l : List Char) : List Char := trimRight (trimLeft l)

/-- JS `String.prototype.trim` on `String`. -/
def jsTrimStr (s : String) : String := String.mk (trimChars s.data)

/-- Embedding of `replace(/[<>{}[\]]/g, '')`. -/
def stripChars (l : List Char) : List Char := l.filter (fun c => !(isStrip c))

/-- Worker for `replace(/\s+/g, ' ')`: the flag records whether the previous
character belonged to a whitespace run whose single `' '` has already been
emitted. -/
def collapseAux : Bool → List Char → List Char
  | _, [] => []
  | prevWs, c :: rest =>
    if isWs c then
      if prevWs then collapseAux true rest else ' ' :: collapseAux true rest
    else c :: collapseAux false rest

/-- Embedding of `replace(/\s+/g, ' ')`: every maximal whitespace run becomes one space. -/
def collapseWs (l : List Char) : List Char := collapseAux false l

/-- Embedding of `GeminiClient.sanitizeMessage` on the character list of a string:
trim, truncate to 4000, strip `< > { } [ ]`, collapse whitespace runs. -/
def sanitizeList (l : List Char) : List Char :=
  collapseWs (stripChars ((trimChars l).take 4000))

/-- Embedding of `GeminiClient.sanitizeMessage`: non-strings are mapped to `""`. -/
def sanitizeMessage (m : JSVal) : String :=
  match m with
  | .vstr s => String.mk (sanitizeList s.data)
  | _ => ""

/-! ## The `src/api/chat.js` handler -/

/-- One `{ text: ... }` part of an upstream message.  The text is kept as a
`JSVal` because the source can produce a non-string here: for a falsy string
part `p`, `typeof (p && p.text) === "string"` holds and `p.text` is
`undefined`. -/
structure Part where
  text : JSVal

/-- One entry of the `contents` array sent upstream.  `role` is a `JSVal`
because the system-instruction normalization copies a caller-supplied truthy
`role` verbatim, whatever its type. -/
structure ChatMessage where
  role : JSVal
  parts : List Part

/-- Embedding of `Array.prototype.map` with a body that may throw: entries are processed
left to right and the first exception propagates. -/
def mapExcept {α β ε : Type} (f : α → Except ε β) : List α → Except ε (List β)
  | [] => .ok []
  | x :: xs =>
    match f x with
    | .error e => .error e
    | .ok y =>
      match mapExcept f xs with
      | .error e => .error e
      | .ok ys => .ok (y :: ys)

/-- Part normalization inside `safeHistory`
(`{ text: typeof (p && p.text) === "string" ? p.text : "" }`). -/
def normPart (p : JSVal) : Part :=
  match (if truthy p then fieldOf p "text" else p) with
  | .vstr _ => ⟨fieldOf p "text"⟩
  | _ => ⟨.vstr ""⟩

/-- The role default of the `safeHistory` map:
`(item && typeof item.role === "string") ? item.role : "user"`. -/
def roleOfItem (item : JSVal) : JSVal :=
  if truthy item then
    match fieldOf item "role" with
    | .vstr r => .vstr r
    | _ => .vstr "user"
  else .vstr "user"

/-- One iteration of the `safeHistory` map (src/api/chat.js, lines 43-57).
The `item.parts` access is not guarded, so a `null`/`undefined` entry raises
a `TypeError` (the map body reads `item.parts` directly after computing the
role with a guarded access). -/
def safeHistoryEntry (item : JSVal) : Except Unit ChatMessage :=
  match getField item "parts" with
  | .error e => .error e
  | .ok (.varr ps) => .ok ⟨roleOfItem item, ps.map normPart⟩
  | .ok _ =>
    match getField item "text" with
    | .error e => .error e
    | .ok (.vstr t) => .ok ⟨roleOfItem item, [⟨.vstr t⟩]⟩
    | .ok _ => .ok ⟨roleOfItem item, [⟨.vstr ""⟩]⟩

/-- Embedding of `safeHistory` (src/api/chat.js, lines 42-59): a non-array history is
replaced by `[]`; an array is mapped entrywise, propagating any thrown
`TypeError`. -/
def safeHistory (history : JSVal) : Except Unit (List ChatMessage) :=
  match history with
  | .varr items => mapExcept safeHistoryEntry items
  | _ => .ok []

/-- The message `{ role: "user", parts: [{ text: prompt }] }` — the raw prompt, exactly
as received. -/
def userContent (prompt : String) : ChatMessage :=
  ⟨.vstr "user", [⟨.vstr prompt⟩]⟩

/-- One part of a structured system instruction
(`{ text: typeof p.text === "string" ? p.text : "" }`): here the `p.text`
access is not guarded, so a null entry throws. -/
def sysPartOfJS (p : JSVal) : Except Unit Part :=
  match getField p "text" with
  | .error e => .error e
  | .ok (.vstr s) => .ok ⟨.vstr s⟩
  | .ok _ => .ok ⟨.vstr ""⟩

/-- System-instruction normalization for the `typeof === "object"` case
(src/api/chat.js, lines 70-76). -/
def sysFromObject (si : JSVal) : Except Unit ChatMessage :=
  match (match fieldOf si "parts" with
         | .varr ps => mapExcept sysPartOfJS ps
         | _ =>
           .ok [match fieldOf si "text" with
                | .vstr s => (⟨.vstr s⟩ : Part)
                | _ => (⟨.vstr ""⟩ : Part)]) with
  | .error e => .error e
  | .ok parts =>
    .ok ⟨if truthy (fieldOf si "role") then fieldOf si "role" else .vstr "system", parts⟩

/-- The `safeSystemInstruction` normalization (src/api/chat.js, lines 65-77):
falsy → `null`; string → a `system` message; object (arrays included, since
`typeof [] === "object"`) → `sysFromObject`; any other truthy primitive is
left as `null`. -/
def normSysInstruction (si : JSVal) : Except Unit (Option ChatMessage) :=
  if truthy si then
    match si with
    | .vstr s => .ok (some ⟨.vstr "system", [⟨.vstr s⟩]⟩)
    | .vobj _ => (sysFromObject si).map some
    | .varr _ => (sysFromObject si).map some
    | _ => .ok none
  else .ok none

/-- The `contents` construction (src/api/chat.js, lines 80-82). -/
def buildContents (sys : Option ChatMessage) (hist : List ChatMessage)
    (prompt : String) : List ChatMessage :=
  match sys with
  | some s => s :: (hist ++ [userContent prompt])
  | none => hist ++ [userContent prompt]

/-- The fixed `generationConfig.temperature` of src/api/chat.js. -/
def chatDefaultTemperature : ℚ := 1 / 2

/-- Outcome of the body-processing part of a handler: either an early JSON
response produced before any network activity, or the upstream
`generateContent` call with the contents it would send. -/
inductive HandlerStep where
  | response (status : Nat) (body : JSVal)
  | upstream (contents : List ChatMessage) (temperature : ℚ)

/-- The 400 body of the chat.js prompt validation. -/
def chatPromptError : JSVal :=
  .vobj [("error", .vstr "Invalid or missing \"prompt\" field.")]

/-- The prompt test of src/api/chat.js line 37:
`typeof prompt !== "string" || prompt.trim() === ""`. -/
def promptInvalid (v : JSVal) : Bool :=
  match v with
  | .vstr s => jsTrimStr s == ""
  | _ => true

/-- The body-processing part of the src/api/chat.js handler (lines 35-92):
destructure `req.body || {}`, validate the prompt, build `safeHistory`,
normalize the system instruction and assemble the upstream call.  The
`safeHistory` construction happens outside the `try` block, so a thrown
`TypeError` escapes the handler (modelled by `.error`). -/
def chatHandler (body : JSVal) : Except Unit HandlerStep :=
  match fieldOf body "prompt" with
  | .vstr p =>
    if jsTrimStr p = "" then .ok (.response 400 chatPromptError)
    else
      match safeHistory (fieldOf body "history") with
      | .error e => .error e
      | .ok hist =>
        match normSysInstruction (fieldOf body "systemInstruction") with
        | .error e => .error e
        | .ok sys => .ok (.upstream (buildContents sys hist p) chatDefaultTemperature)
  | _ => .ok (.response 400 chatPromptError)

/-! ## The `src/unnamed/part_000` handler variant -/

/-- Outcome of the part_000 handler body: early response or the upstream
call.  Its messages are raw `JSVal`s because this variant copies
`item.role` and a truthy `item.parts` verbatim, without shaping them. -/
inductive P0Step where
  | response (status : Nat) (body : JSVal)
  | upstream (contents : List JSVal)

/-- One iteration of the part_000 history map
(`{ role: item.role, parts: item.parts || [{ text: item.text || "" }] }`).
The unguarded `item.role` access throws on a `null` entry. -/
def part000Entry (item : JSVal) : Except Unit JSVal :=
  match getField item "role" with
  | .error e => .error e
  | .ok role =>
    match getField item "parts" with
    | .error e => .error e
    | .ok pv =>
      if truthy pv then .ok (.vobj [("role", role), ("parts", pv)])
      else
        match getField item "text" with
        | .error e => .error e
        | .ok tv =>
          .ok (.vobj [("role", role),
            ("parts", .varr [.vobj [("text", if truthy tv then tv else .vstr "")]])])

/-- The message `{ role: "user", parts: [{ text: prompt }] }` of part_000 — again the
raw prompt value (which this variant has only checked for truthiness). -/
def part000UserMsg (prompt : JSVal) : JSVal :=
  .vobj [("role", .vstr "user"), ("parts", .varr [.vobj [("text", prompt)]])]

/-- part_000 `contents` construction (lines 34-40):
`[...(history || []).map(...), userMessage]`.  Calling `.map` on a truthy
non-array throws (modelled by `.error`), and that throw is caught by the
handler's `try`. -/
def part000Contents (history : JSVal) (prompt : JSVal) : Except Unit (List JSVal) :=
  match (if truthy history then history else .varr []) with
  | .varr items =>
    match mapExcept part000Entry items with
    | .error e => .error e
    | .ok msgs => .ok (msgs ++ [part000UserMsg prompt])
  | _ => .error ()

/-- The part_000 catch-block 500 body. -/
def part000ServerError : JSVal :=
  .vobj [("error", .vstr "Internal Server Error during model processing.")]

/-- The part_000 missing-prompt 400 body. -/
def part000MissingPrompt : JSVal :=
  .vobj [("error", .vstr "Missing \"prompt\" field.")]

/-- The body-processing part of the part_000 handler (lines 28-48):
`if (!prompt) return 400`, then the `try` block building `contents`;
anything thrown there yields the 500 catch response. -/
def part000Handler (body : JSVal) : P0Step :=
  let prompt := fieldOf body "prompt"
  if !truthy prompt then .response 400 part000MissingPrompt
  else
    match part000Contents (fieldOf body "history") prompt with
    | .ok contents => .upstream contents
    | .error _ => .response 500 part000ServerError

/-- part_000 response-text extraction (lines 50-52):
`result?.candidates?.[0]?.content?.parts?.[0]?.text || "No content generated."`.
Every step is optional-chained, so this never throws. -/
def part000ExtractText (result : JSVal) : JSVal :=
  let t := fieldOf (jsIndex0 (fieldOf (fieldOf (jsIndex0
    (fieldOf result "candidates")) "content") "parts")) "text"
  if truthy t then t else .vstr "No content generated."

/-! ## `GeminiClient.generateContent` response interpretation and error
mapping (src/utils/geminiClient.js, src/unnamed/part_002) -/

/-- Error message thrown for `finishReason === 'SAFETY'`. -/
def msgSafety : String :=
  "Response blocked due to safety concerns. Please try a different business question."

/-- Error message thrown for `finishReason === 'RECITATION'`. -/
def msgRecitation : String := "Response contained recitation from training data"

/-- Error message thrown when `data.candidates`/`data.candidates[0]` is
missing or falsy. -/
def msgNoResponse : String := "No response generated from Gemini API"

/-- Stand-in for the message of a JS `TypeError` raised by a property or
index access on `undefined`/`null` (the exact engine wording is irrelevant:
it contains none of the keywords the error mapping matches on). -/
def msgTypeError : String := "Cannot read properties of undefined"

/-- Result of interpreting a 200 upstream body inside `generateContent`:
either the extracted `content` value or a thrown error message. -/
inductive GemResult where
  | ok (content : JSVal)
  | err (message : String)

/-- Interpretation of a 200-status upstream body
(src/utils/geminiClient.js, lines 156-176): the candidates check, the
SAFETY/RECITATION checks, and
`candidate.content?.parts[0]?.text || 'No response generated.'`.
Only `content` is optional-chained there: when `content` is present but
`parts` is absent, the `parts[0]` index access throws a `TypeError`. -/
def generateContent200 (data : JSVal) : GemResult :=
  match getField data "candidates" with
  | .error _ => .err msgTypeError
  | .ok cands =>
    if !truthy cands then .err msgNoResponse
    else
      let c0 := jsIndex0 cands
      if !truthy c0 then .err msgNoResponse
      else
        match fieldOf c0 "finishReason" with
        | .vstr "SAFETY" => .err msgSafety
        | .vstr "RECITATION" => .err msgRecitation
        | _ =>
          match fieldOf c0 "content" with
          | .vnull => .ok (.vstr "No response generated.")
          | content =>
            match fieldOf content "parts" with
            | .vnull => .err msgTypeError
            | parts =>
              let t := fieldOf (jsIndex0 parts) "text"
              .ok (if truthy t then t else .vstr "No response generated.")

/-- Embedding of JS `s.startsWith(p)`, computed on character lists. -/
def strStarts (s p : String) : Bool := p.data.isPrefixOf s.data

/-- Substring search used to model JS `String.prototype.includes`. -/
def hasSubstrList (pat : List Char) : List Char → Bool
  | [] => pat.isEmpty
  | c :: rest => pat.isPrefixOf (c :: rest) || hasSubstrList pat rest

/-- JS `s.includes(p)`. -/
def hasSubstr (s p : String) : Bool := hasSubstrList p.data s.data

/-- The catch-block of `generateContent` (src/utils/geminiClient.js, lines
179-191): messages starting with one of five known prefixes are re-thrown
unchanged, everything else is wrapped as a service-unavailable error. -/
def wrapError (msg : String) : String :=
  if strStarts msg "Rate limit" || strStarts msg "API key" || strStarts msg "Invalid"
      || strStarts msg "Message" || strStarts msg "Response blocked" then msg
  else "Gemini service unavailable: " ++ msg

/-- The catch-block status mapping of the part_002 API endpoint: substring
checks on the error message, in source order. -/
def part002Status (msg : String) : Nat :=
  if hasSubstr msg "API key" || hasSubstr msg "GEMINI_API_KEY" then 500
  else if hasSubstr msg "Invalid" || hasSubstr msg "Message" then 400
  else if hasSubstr msg "Rate limit" then 429
  else if hasSubstr msg "Gemini API error" then 502
  else if hasSubstr msg "unavailable" then 503
  else if hasSubstr msg "safety" || hasSubstr msg "blocked" then 400
  else 500

/-- HTTP status of the part_002 endpoint for a 200-status upstream body:
200 on successful extraction, otherwise the thrown message passes through
the `generateContent` catch-block re-wrap and the handler's status
mapping. -/
def geminiPipelineStatus (data : JSVal) : Nat :=
  match generateContent200 data with
  | .ok _ => 200
  | .err m => part002Status (wrapError m)

/-! ## `GeminiClient.prepareMessages` (src/utils/geminiClient.js, lines
40-69): `filter(msg => msg.role !== 'system')`, then a map that validates
role and sanitized content, throwing on any failure. -/

/-- The filter predicate `msg.role !== 'system'`; the unguarded `msg.role`
access throws on a null entry. -/
def roleNotSystem (m : JSVal) : Except String Bool := do
  let r ← (getField m "role").mapError (fun _ => msgTypeError)
  pure (match r with | .vstr "system" => false | _ => true)

/-- Embedding of `Array.prototype.filter` with a predicate that may throw. -/
def exceptFilter {α ε : Type} (f : α → Except ε Bool) : List α → Except ε (List α)
  | [] => .ok []
  | x :: xs => do
    let b ← f x
    let rest ← exceptFilter f xs
    pure (if b then x :: rest else rest)

/-- The content check and role mapping at the end of the `prepareMessages`
map body (`role: msg.role === 'user' ? 'user' : 'model'`). -/
def prepareContent (fs : List (String × JSVal)) (mappedRole : JSVal) :
    Except String ChatMessage :=
  let content := sanitizeMessage ((lookupField fs "content").getD .vnull)
  if content = "" then .error "Message content cannot be empty after sanitization"
  else .ok ⟨mappedRole, [⟨.vstr content⟩]⟩

/-- The `prepareMessages` map body: object check, role check, content
check.  Arrays pass the `typeof msg !== 'object'` test and fail on the
role. -/
def prepareOne (m : JSVal) : Except String ChatMessage :=
  match m with
  | .vobj fs =>
    match lookupField fs "role" with
    | some (.vstr "user") => prepareContent fs (.vstr "user")
    | some (.vstr "assistant") => prepareContent fs (.vstr "model")
    | _ => .error "Message role must be \"user\" or \"assistant\""
  | .varr _ => .error "Message role must be \"user\" or \"assistant\""
  | _ => .error "Each message must be an object"

/-- Embedding of `GeminiClient.prepareMessages`: non-arrays throw; otherwise filter out
system messages (the filter itself can throw on null entries), then map. -/
def prepareMessages (messages : JSVal) : Except String (List ChatMessage) :=
  match messages with
  | .varr msgs =>
    match exceptFilter roleNotSystem msgs with
    | .error e => .error e
    | .ok kept => mapExcept prepareOne kept
  | _ => .error "Messages must be an array"

/-! ## Temperature configuration and the client singleton -/

/-- Whether a JS value is a number lying in `[0, 1]`. -/
def inUnit : JSVal → Bool
  | .vnum y => decide ((0 : ℚ) ≤ y ∧ y ≤ 1)
  | _ => false

/-- The `generationConfig.temperature` expression of
`GeminiClient.generateContent` (src/utils/geminiClient.js, lines 89-91):
`typeof options.temperature === 'number'
  ? Math.max(0, Math.min(1, options.temperature)) : 0.7`. -/
def configTemperature (options : JSVal) : JSVal :=
  match fieldOf options "temperature" with
  | .vnum x => .vnum (max 0 (min 1 x))
  | _ => .vnum (7 / 10)

/-- The state held by a constructed `GeminiClient` that the claims are
about: the trimmed API key captured at construction time. -/
structure GClient where
  apiKey : String

/-- The `GeminiClient` constructor: throws on a falsy, non-string or
blank-after-trim key, otherwise stores the trimmed key. -/
def GeminiClientCtor (apiKey : JSVal) : Except Unit GClient :=
  match apiKey with
  | .vstr s => if jsTrimStr s = "" then .error () else .ok ⟨jsTrimStr s⟩
  | _ => .error ()

/-- Embedding of `getGeminiClient` (src/utils/geminiClient.js, lines 195-205), with the
module-level `geminiInstance` variable made explicit: the function takes the
current instance state and returns the client together with the new state.
When an instance already exists, the `apiKey` argument is never read. -/
def getGeminiClient (instanceState : Option GClient) (apiKey : JSVal) :
    Except Unit (GClient × Option GClient) :=
  match instanceState with
  | some c => .ok (c, some c)
  | none =>
    if !truthy apiKey then .error ()
    else
      match GeminiClientCtor apiKey with
      | .ok c => .ok (c, some c)
      | .error e => .error e

/-! ## Properties of the sanitizer -/

/-- Adjacent-pair constraint of a whitespace-collapsed list: the two
characters are not both whitespace. -/
def NoWsPair (a b : Char) : Prop := ¬(isWs a = true ∧ isWs b = true)

/-- A list is in collapsed form: every whitespace character in it is a plain
space and no two adjacent characters are both whitespace.  This is exactly
the image characterization of `replace(/\s+/g, ' ')`. -/
def WsNormal (l : List Char) : Prop :=
  (∀ c ∈ l, isWs c = true → c = ' ') ∧ l.Chain' NoWsPair

theorem length_collapseAux (f : Bool) (l : List Char) :
    (collapseAux f l).length ≤ l.length := by
  induction l generalizing f with
  | nil => simp [collapseAux]
  | cons c rest ih =>
    have h1 := ih true
    have h2 := ih false
    cases f <;> by_cases hc : isWs c <;>
      simp [collapseAux, hc, List.length_cons] <;> omega

theorem mem_collapseAux {b : Char} {f : Bool} {l : List Char}
    (h : b ∈ collapseAux f l) : b = ' ' ∨ b ∈ l := by
  induction l generalizing f with
  | nil => simp [collapseAux] at h
  | cons c rest ih =>
    cases f <;> by_cases hc : isWs c <;> simp [collapseAux, hc] at h
    · rcases h with h | h
      · exact Or.inl h
      · rcases ih h with h' | h'
        · exact Or.inl h'
        · exact Or.inr (List.mem_cons_of_mem _ h')
    · rcases h with h | h
      · exact Or.inr (by simp [h])
      · rcases ih h with h' | h'
        · exact Or.inl h'
        · exact Or.inr (List.mem_cons_of_mem _ h')
    · rcases ih h with h' | h'
      · exact Or.inl h'
      · exact Or.inr (List.mem_cons_of_mem _ h')
    · rcases h with h | h
      · exact Or.inr (by simp [h])
      · rcases ih h with h' | h'
        · exact Or.inl h'
        · exact Or.inr (List.mem_cons_of_mem _ h')

theorem ws_space_of_mem_collapseAux {b : Char} {f : Bool} {l : List Char}
    (hb : b ∈ collapseAux f l) (hw : isWs b = true) : b = ' ' := by
  induction l generalizing f with
  | nil => simp [collapseAux] at hb
  | cons c rest ih =>
    cases f <;> by_cases hc : isWs c <;> simp [collapseAux, hc] at hb <;>
      first
        | exact ih hb
        | (rcases hb with hb | hb
           · exact hb
           · exact ih hb)
        | (rcases hb with hb | hb
           · exact absurd (hb ▸ hw) (by simp [hc])
           · exact ih hb)

/-- The head of `collapseAux true l` is never whitespace: the pending
whitespace run has already been emitted, and `collapseAux` skips the rest of
it. -/
theorem collapseAux_true_head {l : List Char} {d : Char}
    (h : (collapseAux true l).head? = some d) : isWs d = false := by
  induction l with
  | nil => simp [collapseAux] at h
  | cons c rest ih =>
    by_cases hc : isWs c
    · simp only [collapseAux, hc, if_true] at h
      exact ih h
    · simp only [collapseAux, hc, if_false, Bool.false_eq_true, List.head?_cons,
        Option.some.injEq] at h
      simp [← h, hc]

theorem chain'_collapseAux (f : Bool) (l : List Char) :
    (collapseAux f l).Chain' NoWsPair := by
  induction l generalizing f with
  | nil => simp [collapseAux]
  | cons c rest ih =>
    by_cases hc : isWs c
    · cases f
      · simp only [collapseAux, hc, if_true]
        refine List.chain'_cons'.mpr ⟨?_, ih true⟩
        intro d hd
        intro hpair
        exact absurd hpair.2 (by simp [collapseAux_true_head hd])
      · simp only [collapseAux, hc, if_true]
        exact ih true
    · cases f <;>
        · simp only [collapseAux, hc, if_false, Bool.false_eq_true]
          refine List.chain'_cons'.mpr ⟨?_, ih false⟩
          intro d _ hpair
          exact absurd hpair.1 (by simp [hc])

theorem wsNormal_collapseWs (l : List Char) : WsNormal (collapseWs l) :=
  ⟨fun _ hc hw => ws_space_of_mem_collapseAux hc hw, chain'_collapseAux false l⟩

/-- When the head of `l` is not whitespace, the pending-run flag makes no
difference. -/
theorem collapseAux_true_eq_false {l : List Char}
    (h : ∀ d, l.head? = some d → isWs d = false) :
    collapseAux true l = collapseAux false l := by
  cases l with
  | nil => rfl
  | cons d t =>
    have hd := h d rfl
    simp [collapseAux, hd]

/-- Collapsing is the identity on collapsed-form lists. -/
theorem WsNormal.collapseWs_eq {l : List Char} (h : WsNormal l) :
    collapseWs l = l := by
  obtain ⟨hsp, hch⟩ := h
  unfold collapseWs
  induction l with
  | nil => rfl
  | cons c rest ih =>
    obtain ⟨hhead, htail⟩ := List.chain'_cons'.mp hch
    have hrest : collapseAux false rest = rest :=
      ih (fun d hd hw => hsp d (List.mem_cons_of_mem _ hd) hw) htail
    by_cases hc : isWs c
    · have hc' : c = ' ' := hsp c (List.mem_cons_self _ _) hc
      have hno : ∀ d, rest.head? = some d → isWs d = false := by
        intro d hd
        by_contra hw
        exact hhead d hd ⟨hc, by simpa using hw⟩
      simp only [collapseAux, hc, if_true]
      rw [collapseAux_true_eq_false hno, hrest, hc']
      simp
    · simp only [collapseAux, hc, if_false, Bool.false_eq_true]
      rw [hrest]

theorem trimRight_sublist (l : List Char) : (trimRight l).Sublist l := by
  have h : ((l.reverse.dropWhile isWs).reverse).Sublist l.reverse.reverse :=
    (List.dropWhile_sublist isWs).reverse
  simpa [trimRight] using h

theorem trimChars_sublist (l : List Char) : (trimChars l).Sublist l :=
  (trimRight_sublist (trimLeft l)).trans (List.dropWhile_sublist isWs)

/-- Chains of `NoWsPair` survive reversal (the relation is symmetric). -/
theorem chain'_noWsPair_reverse {l : List Char} (h : l.Chain' NoWsPair) :
    l.reverse.Chain' NoWsPair := by
  rw [List.chain'_reverse]
  exact h.imp (fun a b hab => fun hp => hab ⟨hp.2, hp.1⟩)

theorem WsNormal.trimChars (h : WsNormal l) : WsNormal (Lcprxy.trimChars l) := by
  obtain ⟨hsp, hch⟩ := h
  refine ⟨fun c hc hw => hsp c ((trimChars_sublist l).subset hc) hw, ?_⟩
  have h1 : (trimLeft l).Chain' NoWsPair :=
    hch.suffix (List.dropWhile_suffix isWs)
  have h2 : ((trimLeft l).reverse.dropWhile isWs).Chain' NoWsPair :=
    (chain'_noWsPair_reverse h1).suffix (List.dropWhile_suffix isWs)
  exact chain'_noWsPair_reverse h2

theorem length_sanitizeList_le (l : List Char) : (sanitizeList l).length ≤ 4000 := by
  calc (sanitizeList l).length
      ≤ (stripChars ((trimChars l).take 4000)).length :=
        length_collapseAux false _
    _ ≤ ((trimChars l).take 4000).length := List.length_filter_le _ _
    _ ≤ 4000 := by simp [List.length_take]

/-- No sanitized string contains one of the stripped characters. -/
theorem sanitizeList_no_strip {c : Char} {l : List Char}
    (hc : c ∈ sanitizeList l) : isStrip c = false := by
  rcases mem_collapseAux hc with h | h
  · subst h; decide
  · exact Bool.not_eq_true _ ▸ fun hs => by
      have := (List.mem_filter.mp h).2
      simp [hs] at this

theorem wsNormal_sanitizeList (l : List Char) : WsNormal (sanitizeList l) :=
  wsNormal_collapseWs _

/-- A second sanitization pass reduces to a plain trim of the first pass:
the first pass's output is already at most 4000 characters long, free of
stripped characters and in collapsed whitespace form — but it can carry a
leading or trailing space (created when a stripped character or the
truncation point was adjacent to whitespace), which only the `trim` of the
second pass removes. -/
theorem sanitizeList_sanitizeList (l : List Char) :
    sanitizeList (sanitizeList l) = trimChars (sanitizeList l) := by
  have hlen : (trimChars (sanitizeList l)).length ≤ 4000 :=
    le_trans (trimChars_sublist (sanitizeList l)).length_le (length_sanitizeList_le l)
  have htake : (trimChars (sanitizeList l)).take 4000 = trimChars (sanitizeList l) :=
    List.take_of_length_le hlen
  have hstrip : stripChars (trimChars (sanitizeList l)) = trimChars (sanitizeList l) := by
    refine List.filter_eq_self.mpr fun a ha => ?_
    have : a ∈ sanitizeList l := (trimChars_sublist (sanitizeList l)).subset ha
    simp [sanitizeList_no_strip this]
  have hnorm : WsNormal (trimChars (sanitizeList l)) :=
    (wsNormal_sanitizeList l).trimChars
  show collapseWs (stripChars ((trimChars (sanitizeList l)).take 4000))
      = trimChars (sanitizeList l)
  rw [htake, hstrip, hnorm.collapseWs_eq]

/-! ## Helper lemmas about the handlers -/

theorem buildContents_eq (sys : Option ChatMessage) (hist : List ChatMessage)
    (p : String) :
    buildContents sys hist p = sys.toList ++ (hist ++ [userContent p]) := by
  cases sys <;> rfl

/-- Evaluation of `safeHistoryEntry` on an object, with the two throwing `getField`
accesses resolved (an object receiver never throws). -/
theorem safeHistoryEntry_vobj (fs : List (String × JSVal)) :
    safeHistoryEntry (.vobj fs)
      = match (lookupField fs "parts").getD .vnull with
        | .varr ps => .ok ⟨roleOfItem (.vobj fs), ps.map normPart⟩
        | _ =>
          match (lookupField fs "text").getD .vnull with
          | .vstr t => .ok ⟨roleOfItem (.vobj fs), [⟨.vstr t⟩]⟩
          | _ => .ok ⟨roleOfItem (.vobj fs), [⟨.vstr ""⟩]⟩ := by
  unfold safeHistoryEntry
  rw [show getField (.vobj fs) "parts"
        = .ok ((lookupField fs "parts").getD .vnull) from rfl,
      show getField (.vobj fs) "text"
        = .ok ((lookupField fs "text").getD .vnull) from rfl]
  cases (lookupField fs "parts").getD .vnull <;>
    first
      | rfl
      | (cases (lookupField fs "text").getD .vnull <;> rfl)

/-- The map body `safeHistoryEntry` succeeds on every non-null entry. -/
theorem safeHistoryEntry_ok (item : JSVal) (h : item ≠ .vnull) :
    ∃ m, safeHistoryEntry item = .ok m := by
  cases item with
  | vnull => exact absurd rfl h
  | vbool b => exact ⟨_, rfl⟩
  | vnum x => exact ⟨_, rfl⟩
  | vstr s => exact ⟨_, rfl⟩
  | varr xs => exact ⟨_, rfl⟩
  | vobj fs =>
    rw [safeHistoryEntry_vobj]
    cases (lookupField fs "parts").getD .vnull <;>
      first
        | exact ⟨_, rfl⟩
        | (cases (lookupField fs "text").getD .vnull <;> exact ⟨_, rfl⟩)

/-- A history value whose array entries (if any) are all non-null. -/
def nullFreeHistory : JSVal → Bool
  | .varr items => items.all (fun it => match it with | .vnull => false | _ => true)
  | _ => true

/-- The happy path of the chat.js handler: a valid prompt, a history that
normalizes, and a system instruction that normalizes, always produce the
upstream call whose contents are the optional system message, then the
normalized history in order, then exactly the one raw-prompt user message. -/
theorem chatHandler_upstream (b : JSVal) (p : String) (msgs : List ChatMessage)
    (sys : Option ChatMessage)
    (hp : fieldOf b "prompt" = .vstr p) (hpv : jsTrimStr p ≠ "")
    (hh : safeHistory (fieldOf b "history") = .ok msgs)
    (hs : normSysInstruction (fieldOf b "systemInstruction") = .ok sys) :
    chatHandler b
      = .ok (.upstream (sys.toList ++ (msgs ++ [userContent p]))
          chatDefaultTemperature) := by
  unfold chatHandler
  rw [hp]
  simp [hpv, hh, hs, buildContents_eq]

theorem dropWhile_isWs_replicate_lt (n : Nat) :
    (List.replicate n '<').dropWhile isWs = List.replicate n '<' := by
  cases n with
  | zero => rfl
  | succ k => rw [List.replicate_succ, List.dropWhile_cons_of_neg (by decide)]

theorem trimChars_replicate_lt (n : Nat) :
    trimChars (List.replicate n '<') = List.replicate n '<' := by
  unfold trimChars trimLeft trimRight
  rw [dropWhile_isWs_replicate_lt, List.reverse_replicate,
    dropWhile_isWs_replicate_lt, List.reverse_replicate]

theorem sanitizeList_replicate_lt (n : Nat) :
    sanitizeList (List.replicate n '<') = [] := by
  unfold sanitizeList stripChars collapseWs
  rw [trimChars_replicate_lt, List.take_replicate,
    List.filter_replicate_of_neg (by decide)]
  rfl

/-! ## Claim theorems -/

/-- C1 (amended): for every request whose prompt is a non-blank string and
whose history and system instruction normalize successfully, the chat.js
handler sends upstream the optional system message, then the normalized
history entries in their original order, then exactly one trailing
user-role message — whose text is the prompt verbatim (the handler applies
no sanitization to it); no message follows it. -/
theorem c1_trailing_user_is_raw_prompt (b : JSVal) (p : String)
    (msgs : List ChatMessage) (sys : Option ChatMessage)
    (hp : fieldOf b "prompt" = .vstr p) (hpv : jsTrimStr p ≠ "")
    (hh : safeHistory (fieldOf b "history") = .ok msgs)
    (hs : normSysInstruction (fieldOf b "systemInstruction") = .ok sys) :
    chatHandler b
      = .ok (.upstream (sys.toList ++ (msgs ++ [userContent p]))
          chatDefaultTemperature) :=
  chatHandler_upstream b p msgs sys hp hpv hh hs

/-- Witness for C1 at the concrete request `{ prompt: "hi" }`. -/
theorem c1_witness :
    chatHandler (.vobj [("prompt", .vstr "hi")])
      = .ok (.upstream ((none : Option ChatMessage).toList ++ ([] ++ [userContent "hi"]))
          chatDefaultTemperature) :=
  c1_trailing_user_is_raw_prompt (.vobj [("prompt", .vstr "hi")]) "hi" [] none rfl
    (by decide) rfl rfl

/-- C1 counterexample: for the valid prompt `"a  b"` the trailing user
message carries the raw prompt, which differs from its sanitized form
`"a b"` — so the trailing text does not equal the sanitized prompt. -/
theorem c1_counterexample :
    chatHandler (.vobj [("prompt", .vstr "a  b")])
      = .ok (.upstream [userContent "a  b"] chatDefaultTemperature)
    ∧ sanitizeMessage (.vstr "a  b") = "a b"
    ∧ "a  b" ≠ sanitizeMessage (.vstr "a  b") :=
  ⟨rfl, by decide, by decide⟩

/-- C2 (amended): the chat.js handler returns the 400 validation response —
and therefore never reaches the upstream call — exactly when the prompt
field is missing, null, not a string, or blank after trimming (the
`promptInvalid` predicate).  The claim fails for the part_000 variant, which
tests only `!prompt` (see the counterexample). -/
theorem c2_chat_prompt_validation (b : JSVal)
    (h : promptInvalid (fieldOf b "prompt") = true) :
    chatHandler b = .ok (.response 400 chatPromptError) := by
  unfold chatHandler
  cases hv : fieldOf b "prompt" with
  | vstr s =>
    have hts : jsTrimStr s = "" := by
      rw [hv] at h
      simpa [promptInvalid] using h
    simp [hts]
  | vnull => rfl
  | vbool b' => rfl
  | vnum x => rfl
  | varr xs => rfl
  | vobj fs => rfl

/-- Witness for C2 at the whitespace-only prompt `"   "`. -/
theorem c2_witness :
    chatHandler (.vobj [("prompt", .vstr "   ")])
      = .ok (.response 400 chatPromptError) :=
  c2_chat_prompt_validation (.vobj [("prompt", .vstr "   ")]) (by decide)

/-- C2 counterexample: the part_000 handler accepts the whitespace-only
prompt `" "` (it only tests `!prompt`) and proceeds to the upstream call
instead of returning 400. -/
theorem c2_counterexample :
    jsTrimStr " " = ""
    ∧ part000Handler (.vobj [("prompt", .vstr " ")])
        = .upstream [part000UserMsg (.vstr " ")] :=
  ⟨by decide, rfl⟩

/-- C3 (amended): a 200 upstream body whose first candidate has
`finishReason = "SAFETY"` makes the GeminiClient throw its content-blocked
error, which the part_002 handler surfaces as a 400 — not a 500.
`RECITATION` does not enjoy this property (see the counterexample). -/
theorem c3_safety_maps_to_400 (cfs : List (String × JSVal)) (rest : List JSVal)
    (hfr : lookupField cfs "finishReason" = some (.vstr "SAFETY")) :
    geminiPipelineStatus (.vobj [("candidates", .varr (.vobj cfs :: rest))]) = 400 := by
  have h1 : generateContent200 (.vobj [("candidates", .varr (.vobj cfs :: rest))])
      = .err msgSafety := by
    unfold generateContent200
    rw [show getField (.vobj [("candidates", .varr (.vobj cfs :: rest))]) "candidates"
          = .ok (.varr (.vobj cfs :: rest)) from rfl]
    simp [truthy, jsIndex0, fieldOf, hfr]
  unfold geminiPipelineStatus
  rw [h1]
  decide

/-- Witness for C3 at a concrete SAFETY-blocked 200 body. -/
theorem c3_witness :
    geminiPipelineStatus (.vobj [("candidates",
        .varr [.vobj [("finishReason", .vstr "SAFETY")]])]) = 400 :=
  c3_safety_maps_to_400 [("finishReason", .vstr "SAFETY")] [] rfl

/-- C3 counterexample: a 200 body whose first candidate has
`finishReason = "RECITATION"` is surfaced as 503 (a 500-class status, not a
400-class one): the recitation error message matches none of the re-throw
prefixes, is wrapped into "Gemini service unavailable: …", and the
handler's `unavailable` check fires before its safety check. -/
theorem c3_counterexample :
    geminiPipelineStatus (.vobj [("candidates",
        .varr [.vobj [("finishReason", .vstr "RECITATION")]])]) = 503
    ∧ ¬((503 : Nat) < 500) :=
  ⟨by decide, by decide⟩

/-- C4 (amended): `safeHistory` is total on every history value that is not
an array containing a null/undefined entry: a non-array is treated as empty
and any array of non-null entries — objects with missing or ill-typed
fields, numbers, strings, booleans, nested arrays — is coerced entrywise
with defaults.  An array containing null throws (see the counterexample). -/
theorem c4_safeHistory_total_on_null_free (hist : JSVal)
    (h : nullFreeHistory hist = true) :
    ∃ msgs, safeHistory hist = .ok msgs := by
  cases hist with
  | varr items =>
    simp only [nullFreeHistory, List.all_eq_true] at h
    revert h
    induction items with
    | nil => exact fun _ => ⟨[], rfl⟩
    | cons it its ih =>
      intro h
      have h1 : it ≠ .vnull := by
        intro hh
        have := h it (List.mem_cons_self _ _)
        rw [hh] at this
        simp at this
      obtain ⟨m, hm⟩ := safeHistoryEntry_ok it h1
      obtain ⟨ms, hms⟩ := ih fun x hx => h x (List.mem_cons_of_mem _ hx)
      refine ⟨m :: ms, ?_⟩
      have hms' : mapExcept safeHistoryEntry its = .ok ms := hms
      show mapExcept safeHistoryEntry (it :: its) = .ok (m :: ms)
      simp [mapExcept, hm, hms']
  | vnull => exact ⟨[], rfl⟩
  | vbool b => exact ⟨[], rfl⟩
  | vnum x => exact ⟨[], rfl⟩
  | vstr s => exact ⟨[], rfl⟩
  | vobj fs => exact ⟨[], rfl⟩

/-- Witness for C4 at a history mixing a field-less object, a string, a
number and a nested array. -/
theorem c4_witness :
    ∃ msgs, safeHistory (.varr [.vobj [], .vstr "x", .vnum 0, .varr []]) = .ok msgs :=
  c4_safeHistory_total_on_null_free (.varr [.vobj [], .vstr "x", .vnum 0, .varr []]) rfl

/-- C4 counterexample: a history array containing `null` makes
`safeHistory` throw (`null.parts` raises a `TypeError`), and since the
construction happens outside the handler's `try` block the whole chat.js
handler throws instead of degrading gracefully. -/
theorem c4_counterexample :
    safeHistory (.varr [.vnull]) = .error ()
    ∧ chatHandler (.vobj [("prompt", .vstr "hi"), ("history", .varr [.vnull])])
        = .error () :=
  ⟨rfl, rfl⟩

/-- C5 (amended): sanitization is idempotent only up to a final trim: a
second pass equals the trim of the first pass's output, so the two passes
agree exactly when the first output carries no boundary space.  Stripping a
bracket character adjacent to whitespace, or truncating inside a whitespace
run, can leave such a space (the trim happens before the strip and the
truncation, so nothing removes it). -/
theorem c5_sanitize_twice_eq_trim (s : String) :
    sanitizeMessage (.vstr (sanitizeMessage (.vstr s)))
      = jsTrimStr (sanitizeMessage (.vstr s)) :=
  congrArg String.mk (sanitizeList_sanitizeList s.data)

set_option maxRecDepth 8000 in
/-- C5 counterexample: `sanitize "a <" = "a "` (the strip leaves a trailing
space), and sanitizing that output again trims it to `"a"`. -/
theorem c5_counterexample :
    sanitizeMessage (.vstr (sanitizeMessage (.vstr "a <")))
      ≠ sanitizeMessage (.vstr "a <") := by
  decide

/-- C6 (amended): every sanitized result has length at most 4000 — the
truncation caps the post-trim text at 4000 characters, after which the
character strip and the whitespace collapse can only shorten it, so an
over-long input generally does not come out at exactly 4000.  In this model
strings are sequences of Unicode scalar values, so the truncation keeps
whole characters and cannot corrupt the JSON encoding of the request
body. -/
theorem c6_sanitized_length_le (m : JSVal) : (sanitizeMessage m).length ≤ 4000 := by
  cases m with
  | vstr s =>
    show (String.mk (sanitizeList s.data)).length ≤ 4000
    simpa [String.length] using length_sanitizeList_le s.data
  | vnull => exact (by decide : (("" : String)).length ≤ 4000)
  | vbool b => exact (by decide : (("" : String)).length ≤ 4000)
  | vnum x => exact (by decide : (("" : String)).length ≤ 4000)
  | varr xs => exact (by decide : (("" : String)).length ≤ 4000)
  | vobj fs => exact (by decide : (("" : String)).length ≤ 4000)

/-- C6 counterexample: 4001 copies of `'<'` are longer than the 4000 bound,
yet the sanitized result has length 0, not 4000 — the stripped characters
are removed after the truncation. -/
theorem c6_counterexample :
    4000 < (String.mk (List.replicate 4001 '<')).length
    ∧ (sanitizeMessage (.vstr (String.mk (List.replicate 4001 '<')))).length = 0 := by
  constructor
  · show 4000 < (List.replicate 4001 '<').length
    rw [List.length_replicate]
    norm_num
  · show (String.mk (sanitizeList (List.replicate 4001 '<'))).length = 0
    rw [sanitizeList_replicate_lt]
    rfl

/-- C7 (amended): in the chat.js handler, a history entry that is an object
lacking both `parts` and `text` normalizes to a message with exactly one
empty-text part, nothing is thrown, and the request proceeds to the
upstream call.  The GeminiClient variant behaves differently: its
`prepareMessages` throws on such an entry because the sanitized content is
empty (see the counterexample). -/
theorem c7_empty_entry_defaults_and_proceeds (fs : List (String × JSVal))
    (p : String)
    (hparts : lookupField fs "parts" = none)
    (htext : lookupField fs "text" = none)
    (hp : jsTrimStr p ≠ "") :
    safeHistoryEntry (.vobj fs) = .ok ⟨roleOfItem (.vobj fs), [⟨.vstr ""⟩]⟩
    ∧ chatHandler (.vobj [("prompt", .vstr p), ("history", .varr [.vobj fs])])
        = .ok (.upstream [⟨roleOfItem (.vobj fs), [⟨.vstr ""⟩]⟩, userContent p]
            chatDefaultTemperature) := by
  have hentry : safeHistoryEntry (.vobj fs)
      = .ok ⟨roleOfItem (.vobj fs), [⟨.vstr ""⟩]⟩ := by
    rw [safeHistoryEntry_vobj, hparts, htext]
    rfl
  refine ⟨hentry, ?_⟩
  have hh : safeHistory (fieldOf (.vobj [("prompt", .vstr p),
        ("history", .varr [.vobj fs])]) "history")
      = .ok [⟨roleOfItem (.vobj fs), [⟨.vstr ""⟩]⟩] := by
    show mapExcept safeHistoryEntry [.vobj fs] = _
    simp [mapExcept, hentry]
  have hall := chatHandler_upstream (.vobj [("prompt", .vstr p),
      ("history", .varr [.vobj fs])]) p [⟨roleOfItem (.vobj fs), [⟨.vstr ""⟩]⟩]
      none rfl hp hh rfl
  simpa using hall

/-- Witness for C7 at the entry `{}` and the prompt `"hi"`. -/
theorem c7_witness :
    safeHistoryEntry (.vobj []) = .ok ⟨roleOfItem (.vobj []), [⟨.vstr ""⟩]⟩
    ∧ chatHandler (.vobj [("prompt", .vstr "hi"), ("history", .varr [.vobj []])])
        = .ok (.upstream [⟨roleOfItem (.vobj []), [⟨.vstr ""⟩]⟩, userContent "hi"]
            chatDefaultTemperature) :=
  c7_empty_entry_defaults_and_proceeds [] "hi" rfl rfl (by decide)

/-- C7 counterexample: the entry `{ role: "user" }` lacks both `parts` and
`text`, and the GeminiClient's `prepareMessages` throws its empty-content
error on it instead of defaulting — so in that variant the request fails
(mapped to 400) rather than proceeding upstream. -/
theorem c7_counterexample :
    lookupField [("role", JSVal.vstr "user")] "parts" = none
    ∧ lookupField [("role", JSVal.vstr "user")] "text" = none
    ∧ prepareMessages (.varr [.vobj [("role", .vstr "user")]])
        = .error "Message content cannot be empty after sanitization" :=
  ⟨rfl, rfl, rfl⟩

/-- C8 (amended): on a 200 upstream body, the GeminiClient raises its
no-response error only for a missing (or falsy) `candidates` array or a
falsy first candidate; once a first candidate is present, a missing
`content` structure silently yields the placeholder `"No response
generated."` instead of an error (and the part_000 variant yields its
placeholder for any missing structure, never an error). -/
theorem c8_missing_structure (dfs cfs : List (String × JSVal)) (rest : List JSVal)
    (hnoc : lookupField dfs "candidates" = none)
    (hcontent : lookupField cfs "content" = none)
    (hfr : lookupField cfs "finishReason" = none) :
    generateContent200 (.vobj dfs) = .err msgNoResponse
    ∧ generateContent200 (.vobj [("candidates", .varr (.vobj cfs :: rest))])
        = .ok (.vstr "No response generated.") := by
  constructor
  · unfold generateContent200
    rw [show getField (.vobj dfs) "candidates"
          = .ok ((lookupField dfs "candidates").getD .vnull) from rfl, hnoc]
    rfl
  · unfold generateContent200
    rw [show getField (.vobj [("candidates", .varr (.vobj cfs :: rest))]) "candidates"
          = .ok (.varr (.vobj cfs :: rest)) from rfl]
    simp [truthy, jsIndex0, fieldOf, hfr, hcontent]

/-- Witness for C8 at the empty body and at a candidate carrying only a
finish reason field list that is empty. -/
theorem c8_witness :
    generateContent200 (.vobj []) = .err msgNoResponse
    ∧ generateContent200 (.vobj [("candidates", .varr [.vobj []])])
        = .ok (.vstr "No response generated.") :=
  c8_missing_structure [] [] [] rfl rfl rfl

/-- C8 counterexample: a 200 body whose first candidate exists but has no
`content` structure is mapped to the placeholder, not to a
malformed-response error; likewise the part_000 extraction maps the
entirely empty body to its placeholder. -/
theorem c8_counterexample :
    generateContent200 (.vobj [("candidates",
        .varr [.vobj [("finishReason", .vstr "STOP")]])])
      = .ok (.vstr "No response generated.")
    ∧ part000ExtractText (.vobj []) = .vstr "No content generated." :=
  ⟨rfl, rfl⟩

/-- C9 (confirmed): the temperature placed in the upstream generation
configuration always lies in `[0, 1]`: a numeric caller value is clamped by
`Math.max(0, Math.min(1, t))`, a missing or non-numeric one falls back to
the 0.7 default, and the chat.js variant's fixed 0.5 default is in range
too.  (Caller values arrive through a JSON body, modelled as rationals.) -/
theorem inUnit_default_temperature : inUnit (.vnum (7 / 10)) = true := by
  simp only [inUnit, decide_eq_true_eq]
  norm_num

theorem c9_temperature_in_unit_interval :
    (∀ options : JSVal, inUnit (configTemperature options) = true)
    ∧ inUnit (.vnum chatDefaultTemperature) = true := by
  constructor
  · intro options
    unfold configTemperature
    cases hv : fieldOf options "temperature" with
    | vnum x =>
      simp only [inUnit, decide_eq_true_eq]
      exact ⟨le_max_left 0 _, max_le (by norm_num) (min_le_left 1 x)⟩
    | vnull => exact inUnit_default_temperature
    | vbool b => exact inUnit_default_temperature
    | vstr s => exact inUnit_default_temperature
    | varr xs => exact inUnit_default_temperature
    | vobj fs => exact inUnit_default_temperature
  · simp only [inUnit, chatDefaultTemperature, decide_eq_true_eq]
    norm_num

/-- C10 (confirmed): `getGeminiClient` is a first-key-wins singleton — once
a first call has constructed a client, every later call returns that same
instance and the same state, whatever key (or non-key) it is given. -/
theorem c10_singleton_ignores_later_key (k1 k2 : JSVal) (c : GClient)
    (s1 : Option GClient)
    (h : getGeminiClient none k1 = .ok (c, s1)) :
    getGeminiClient s1 k2 = .ok (c, s1) := by
  have h' : (if !truthy k1 then (.error () : Except Unit (GClient × Option GClient))
      else match GeminiClientCtor k1 with
           | .ok c' => .ok (c', some c')
           | .error e => .error e) = .ok (c, s1) := h
  by_cases ht : truthy k1
  · rw [ht] at h'
    simp only [Bool.not_true, Bool.false_eq_true, if_false] at h'
    cases hc : GeminiClientCtor k1 with
    | ok c' =>
      rw [hc] at h'
      simp only [Except.ok.injEq, Prod.mk.injEq] at h'
      obtain ⟨h1, h2⟩ := h'
      subst h1
      subst h2
      rfl
    | error e =>
      rw [hc] at h'
      simp at h'
  · simp [ht] at h'

/-- Witness for C10: after constructing with the key `"key1"`, a call with
no key at all still returns the `"key1"` client. -/
theorem c10_witness :
    getGeminiClient (some ⟨"key1"⟩) .vnull = .ok (⟨"key1"⟩, some ⟨"key1"⟩) :=
  c10_singleton_ignores_later_key (.vstr "key1") .vnull ⟨"key1"⟩ (some ⟨"key1"⟩) rfl

end Lcprxy
